import Mathlib

/-!
# Verification of the IOM-DTM administrative reconciliation & aggregation engine

A shallow embedding in Lean 4 of the core data-processing logic of the
`hdx-scraper-iom-dtm` repository, together with theorems settling the spec's
claims about it.

Embedded code:

* `src/hdx/scraper/iom_dtm/pipeline.py`, `Pipeline.generate_hapi_dataset`:
  duplicate flagging over the collected observation rows (`flagDuplicates`),
  the pandas `groupby`/`agg` aggregation (`aggregate`), the column rename and
  missing-admin-2-name fill (`toResult`), and the `get_rows` generator that
  builds the final HAPI rows and tracks the min/max reference dates
  (`getRows`).
* `src/hdx/scraper/dtm/dtm.py`, `Dtm.get_admin_info`: the p-code resolver
  with its fallback cascade (direct hit, length-based transform, name-based
  lookup) and its diagnostic messages to the error handler.

Modelling conventions:

* pandas `NaN`/Python `None` on a column is `Option.none`.  The
  `***NONE***` placeholder round-trip in `generate_hapi_dataset` (NaN →
  `"***NONE***"` before the groupby, back to `None` after) exists only so
  that pandas does not drop NaN group keys and so that `agg "first"` picks
  the positionally first value; grouping `Option` values directly and taking
  the head of each group captures exactly that behaviour.
* machine integers are `Nat`/`Int`; population counts are `Nat`.
* external collaborators (the `AdminLevel` gazetteer methods
  `convert_admin_pcode_length` and `get_pcode`, the date parser, the
  HRP/GHO country lookups and the framework function `complete_admins`) are
  parameters: fields of the `AdminLevelGaz` structure or explicit function
  arguments.  `convert_admin_pcode_length` may raise `IndexError`, which the
  source catches; it is therefore given an `Except Unit` result type.
* Python list indexing (including the negative-index wrap-around that
  `self._admins[admin_level - 2]` performs when `admin_level = 1`) is
  modelled by `pyGet`; an out-of-range index — an uncaught exception in
  Python — makes the resolver return `none`, so exception-freedom is
  `Option.isSome`.
* the error handler accumulates messages; `get_admin_info` returns the list
  of messages it registered during the call.
-/


/-- One raw observation row as collected from the DTM API by
`get_country_data` (the fields that `generate_hapi_dataset` reads; the
dropped columns `numberMales`/`numberFemales` are omitted). -/
structure Obs where
  admin0Pcode : String
  admin1Pcode : Option String
  admin2Pcode : Option String
  admin0Name : Option String
  admin1Name : Option String
  admin2Name : Option String
  adminLevel : Nat
  assessmentType : Option String
  operation : Option String
  reportingDate : String
  roundNumber : Option Nat
  operationStatus : Option String
  displacementReason : Option String
  idpOriginAdmin1Name : Option String
  idpOriginAdmin1Pcode : Option String
  numPresentIdpInd : Nat
deriving DecidableEq, Repr

/-- The columns used for duplicate detection in
`Pipeline.generate_hapi_dataset` (pipeline.py lines 211-231): the `subset`
dataframe, after the admin2Pcode column has been filled from admin1Pcode and
then from admin0Pcode where missing. -/
structure DedupKey where
  admin2Pcode : String
  admin1Name : Option String
  admin2Name : Option String
  roundNumber : Option Nat
  displacementReason : Option String
  idpOriginAdmin1Name : Option String
  idpOriginAdmin1Pcode : Option String
  assessmentType : Option String
  operation : Option String
  reportingDate : String
deriving DecidableEq, Repr

/-- The fallback fill of the `admin2Pcode` column: where `admin2Pcode` is
missing take `admin1Pcode`, where that is also missing take `admin0Pcode`
(pipeline.py lines 225-230). -/
def fallbackAdmin2 (r : Obs) : String :=
  match r.admin2Pcode with
  | some p => p
  | none =>
    match r.admin1Pcode with
    | some p => p
    | none => r.admin0Pcode

/-- The dedup key of one observation row. -/
def dedupKey (r : Obs) : DedupKey :=
  { admin2Pcode := fallbackAdmin2 r
    admin1Name := r.admin1Name
    admin2Name := r.admin2Name
    roundNumber := r.roundNumber
    displacementReason := r.displacementReason
    idpOriginAdmin1Name := r.idpOriginAdmin1Name
    idpOriginAdmin1Pcode := r.idpOriginAdmin1Pcode
    assessmentType := r.assessmentType
    operation := r.operation
    reportingDate := r.reportingDate }

/-- `subset.duplicated(keep=False)` for the row `r` of `rows`: true iff the
dedup key of `r` occurs at least twice in `rows`. -/
def isDuplicate (rows : List Obs) (r : Obs) : Bool :=
  2 ≤ rows.countP (fun s => decide (dedupKey s = dedupKey r))

/-- An observation row with the `error` column attached. -/
structure FlaggedObs where
  obs : Obs
  error : Option String
deriving DecidableEq, Repr

/-- `global_data["error"] = None; global_data.loc[duplicates, "error"] =
"Duplicate row"` (pipeline.py lines 231-233). -/
def flagDuplicates (rows : List Obs) : List FlaggedObs :=
  rows.map fun r =>
    { obs := r, error := if isDuplicate rows r then some "Duplicate row" else none }

/-- The twelve `groupby` columns of the aggregation (pipeline.py lines
249-262). -/
structure GroupKey where
  admin0Pcode : String
  admin1Pcode : Option String
  admin2Pcode : Option String
  admin0Name : Option String
  admin1Name : Option String
  admin2Name : Option String
  adminLevel : Nat
  assessmentType : Option String
  operation : Option String
  reportingDate : String
  roundNumber : Option Nat
  operationStatus : Option String
deriving DecidableEq, Repr

/-- The grouping key of one observation row. -/
def groupKey (r : Obs) : GroupKey :=
  { admin0Pcode := r.admin0Pcode
    admin1Pcode := r.admin1Pcode
    admin2Pcode := r.admin2Pcode
    admin0Name := r.admin0Name
    admin1Name := r.admin1Name
    admin2Name := r.admin2Name
    adminLevel := r.adminLevel
    assessmentType := r.assessmentType
    operation := r.operation
    reportingDate := r.reportingDate
    roundNumber := r.roundNumber
    operationStatus := r.operationStatus }

/-- The distinct group keys in first-occurrence order.  (pandas emits the
groups sorted by key; no claim depends on the output order, only on which
groups exist and on the intra-group row order, which pandas preserves.) -/
def firstKeys : List GroupKey → List GroupKey
  | [] => []
  | k :: rest => k :: (firstKeys rest).filter (fun k2 => decide (k2 ≠ k))

/-- The contributing rows of the group with key `k`, in input order. -/
def groupOf (flagged : List FlaggedObs) (k : GroupKey) : List FlaggedObs :=
  flagged.filter fun f => decide (groupKey f.obs = k)

/-- One output record of the `groupby(...).agg(...)` step: the group key
columns, the summed `numPresentIdpInd`, and the `error` column aggregated
with `"first"`.  (The `displacementReason`/`idpOriginAdmin1Name`/
`idpOriginAdmin1Pcode` columns, also aggregated with `"first"`, are dropped
immediately afterwards — pipeline.py lines 277-284 — and are omitted.) -/
structure AggRecord where
  key : GroupKey
  population : Nat
  error : Option String
deriving DecidableEq, Repr

/-- `global_data.groupby(groupby).agg({"numPresentIdpInd": "sum", ...,
"error": "first"}).reset_index()` (pipeline.py lines 263-275).  Because every
`None` was replaced by the `***NONE***` placeholder before this step, the
`"first"` aggregator sees no nulls and returns the group's positionally
first value, which the placeholder round-trip then maps back to `None`. -/
def aggregate (flagged : List FlaggedObs) : List AggRecord :=
  (firstKeys (flagged.map fun f => groupKey f.obs)).map fun k =>
    let grp := groupOf flagged k
    { key := k
      population := (grp.map fun f => f.obs.numPresentIdpInd).sum
      error :=
        match grp with
        | [] => none
        | f :: _ => f.error }

/-- A sample observation row used in concrete counterexamples and witnesses:
admin-2 level row for AFG with population `pop`, displacement reason `dr`,
reporting date `d`. -/
def sampleObs (pop : Nat) (dr : Option String) (d : String) : Obs :=
  { admin0Pcode := "AFG"
    admin1Pcode := some "AF01"
    admin2Pcode := some "AF0101"
    admin0Name := some "Afghanistan"
    admin1Name := some "Kabul"
    admin2Name := some "Kabul City"
    adminLevel := 2
    assessmentType := some "BA"
    operation := some "Op"
    reportingDate := d
    roundNumber := some 3
    operationStatus := some "Active"
    displacementReason := dr
    idpOriginAdmin1Name := none
    idpOriginAdmin1Pcode := none
    numPresentIdpInd := pop }

/-- The dedup key as the spec's §4.3 words describe it, for comparison with
`dedupKey` (the key the code actually builds): resolved-or-fallback admin-2
code, provider admin-1 name, provider admin-2 name, reporting round,
assessment type, operation, reporting date — and, per the claim, no other
fields. -/
structure ClaimedDedupKey where
  admin2Pcode : String
  admin1Name : Option String
  admin2Name : Option String
  roundNumber : Option Nat
  assessmentType : Option String
  operation : Option String
  reportingDate : String
deriving DecidableEq, Repr

/-- The spec-claimed dedup key of one observation row. -/
def claimedDedupKey (r : Obs) : ClaimedDedupKey :=
  { admin2Pcode := fallbackAdmin2 r
    admin1Name := r.admin1Name
    admin2Name := r.admin2Name
    roundNumber := r.roundNumber
    assessmentType := r.assessmentType
    operation := r.operation
    reportingDate := r.reportingDate }

/-- One loaded `AdminLevel` gazetteer (hdx.location.adminlevel.AdminLevel),
an external collaborator of `Dtm.get_admin_info`.  `pcodes` is the
membership set, `pcode_to_name`/`pcode_to_parent` the lookup dicts
(`dict.get` semantics: absent key gives `None`).
`convert_admin_pcode_length(iso, pcode, parent)` may raise `IndexError`
(which the caller catches), hence the `Except Unit` result;
`get_pcode(iso, name, parent)` returns a `(pcode, exact)` pair. -/
structure AdminLevelGaz where
  pcodes : List String
  pcode_to_name : String → Option String
  pcode_to_parent : String → Option String
  convert_admin_pcode_length : String → String → Option String → Except Unit (Option String)
  get_pcode : String → Option String → Option String → Option String × Bool

/-- The `admin_info` dict built by `get_admin_info` (dtm.py lines
195-200). -/
structure AdminInfo where
  admin2_code : Option String
  admin2_name : Option String
  admin1_code : Option String
  admin1_name : Option String
deriving DecidableEq, Repr

/-- `{"admin2_code": None, "admin2_name": None, "admin1_code": None,
"admin1_name": None}`. -/
def emptyAdminInfo : AdminInfo :=
  { admin2_code := none, admin2_name := none, admin1_code := none, admin1_name := none }

/-- One diagnostic registered through
`HDXErrorHandler.add_missing_value_message` (an external collaborator whose
calls we record). -/
structure MissingValueMsg where
  pipeline : String
  dataset : String
  value_type : String
  value : Option String
deriving DecidableEq, Repr

/-- `add_missing_value_message("DTM", dataset_name, f"admin {admin_level}
pcode", pcode)`. -/
def missingPcodeMsg (dataset_name : String) (admin_level : Nat) (pcode : Option String) :
    MissingValueMsg :=
  { pipeline := "DTM"
    dataset := dataset_name
    value_type := "admin " ++ toString admin_level ++ " pcode"
    value := pcode }

/-- Python truthiness of an optional string: `None` and `""` are falsy. -/
def pyTruthy : Option String → Bool
  | none => false
  | some s => decide (s ≠ "")

/-- Python list indexing `l[i]` with negative-index wrap-around; `none` is
an uncaught `IndexError`. -/
def pyGet {α : Type} (l : List α) (i : Int) : Option α :=
  if 0 ≤ i then l[i.toNat]?
  else if 0 ≤ i + l.length then l[(i + l.length).toNat]?
  else none

/-- `matched_pcode = ... .convert_admin_pcode_length(iso, pcode,
parent=parent_pcode)` under `try/except IndexError: matched_pcode = None`
(dtm.py lines 214-219). -/
def convMatched (gaz : AdminLevelGaz) (iso p : String) (parent_pcode : Option String) :
    Option String :=
  match gaz.convert_admin_pcode_length iso p parent_pcode with
  | Except.error _ => none
  | Except.ok m => m

/-- `if parent_name: parent_pcode, _ = self._admins[admin_level -
2].get_pcode(iso, parent_name)` (dtm.py lines 231-234).  For
`admin_level = 1` the index is Python's `-1`, i.e. the LAST gazetteer in
the list; an out-of-range index is an uncaught exception (`none`). -/
def parentLookup (admins : List AdminLevelGaz) (iso : String) (admin_level : Nat)
    (parent_pcode parent_name : Option String) : Option (Option String) :=
  if pyTruthy parent_name then
    match pyGet admins ((admin_level : Int) - 2) with
    | none => none
    | some gaz2 => some (gaz2.get_pcode iso parent_name none).1
  else some parent_pcode

/-- `matched_pcode, _ = self._admins[admin_level - 1].get_pcode(iso,
admin_name, parent=parent_pcode)` (dtm.py lines 235-237). -/
def nameMatched (gaz : AdminLevelGaz) (iso : String) (admin_name parent_pcode : Option String) :
    Option String :=
  (gaz.get_pcode iso admin_name parent_pcode).1

/-- `admin_info[f"admin{admin_level}_code"] = pcode;
admin_info[f"admin{admin_level}_name"] = ...` (dtm.py lines 251-254).  For
admin levels other than 1 and 2 Python would create dict keys outside the
four that callers read; those writes are invisible in this model. -/
def setAdminCodeName (info : AdminInfo) (admin_level : Nat) (c n : Option String) : AdminInfo :=
  if admin_level = 1 then { info with admin1_code := c, admin1_name := n }
  else if admin_level = 2 then { info with admin2_code := c, admin2_name := n }
  else info

/-- The tail of `get_admin_info` after a successful resolution (dtm.py
lines 251-259): fill in the code and name at the requested level and, at
level 2, the admin-1 code and name from the gazetteer parent maps. -/
def finishAdminInfo (admins : List AdminLevelGaz) (admin_level : Nat) (pcode : String)
    (warning : Option String) (msgs : List MissingValueMsg) :
    Option (AdminInfo × Option String × List MissingValueMsg) :=
  match pyGet admins ((admin_level : Int) - 1) with
  | none => none
  | some gaz =>
    let info := setAdminCodeName emptyAdminInfo admin_level (some pcode)
      (gaz.pcode_to_name pcode)
    if admin_level = 2 then
      match pyGet admins 1, pyGet admins 0 with
      | some gaz1, some gaz0 =>
        let parentCode := gaz1.pcode_to_parent pcode
        some ({ info with
                  admin1_code := parentCode
                  admin1_name := parentCode.bind gaz0.pcode_to_name },
              warning, msgs)
      | _, _ => none
    else some (info, warning, msgs)

/-- The name-based fallback of `get_admin_info` (dtm.py lines 224-249),
entered when the pcode is unknown and the length transform failed: register
one `MissingValue` diagnostic, resolve the parent name if supplied, look
the admin name up in the gazetteer; on success continue to the tail with
warning `"Pcode unknown {orig}->{matched}"` , on failure register a second
diagnostic and return the empty resolution with warning
`"Pcode unknown {orig}"`. -/
def nameLookupBranch (admins : List AdminLevelGaz) (dataset_name iso : String)
    (admin_level : Nat) (p : String) (admin_name parent_pcode parent_name : Option String)
    (gaz : AdminLevelGaz) :
    Option (AdminInfo × Option String × List MissingValueMsg) :=
  let msgs1 := [missingPcodeMsg dataset_name admin_level (some p)]
  match parentLookup admins iso admin_level parent_pcode parent_name with
  | none => none
  | some parent_pcode2 =>
    let matched2 := nameMatched gaz iso admin_name parent_pcode2
    if pyTruthy matched2 then
      match matched2 with
      | some m2 =>
        finishAdminInfo admins admin_level m2
          (some ("Pcode unknown " ++ p ++ "->" ++ m2)) msgs1
      | none => none
    else
      some (emptyAdminInfo, some ("Pcode unknown " ++ p),
        msgs1 ++ [missingPcodeMsg dataset_name admin_level (some p)])

/-- `Dtm.get_admin_info` (dtm.py lines 185-259).  The result is `none`
exactly when Python would raise an uncaught exception (an out-of-range
gazetteer-list index); otherwise it is the returned `(admin_info, warning)`
pair together with the diagnostics registered during the call, in order. -/
def get_admin_info (admins : List AdminLevelGaz) (dataset_name iso : String)
    (admin_level : Nat) (pcode admin_name parent_pcode parent_name : Option String) :
    Option (AdminInfo × Option String × List MissingValueMsg) :=
  if pyTruthy pcode = false then
    some (emptyAdminInfo, some "Missing pcode",
      [missingPcodeMsg dataset_name admin_level pcode])
  else
    match pcode with
    | none => none
    | some p =>
      match pyGet admins ((admin_level : Int) - 1) with
      | none => none
      | some gaz =>
        if p ∈ gaz.pcodes then
          finishAdminInfo admins admin_level p none []
        else
          match convMatched gaz iso p parent_pcode with
          | some m =>
            if m = "" then
              nameLookupBranch admins dataset_name iso admin_level p
                admin_name parent_pcode parent_name gaz
            else
              finishAdminInfo admins admin_level m
                (some ("Pcode unknown " ++ p ++ "->" ++ m)) []
          | none =>
            nameLookupBranch admins dataset_name iso admin_level p
              admin_name parent_pcode parent_name gaz

/-- The `admin_info` produced by the tail of `get_admin_info` when the
resolved pcode is `p`, with the two gazetteers `g0` (admin 1) and `g1`
(admin 2): used to state the case characterization. -/
def mkFinishInfo (g0 g1 : AdminLevelGaz) (admin_level : Nat) (p : String) : AdminInfo :=
  if admin_level = 1 then
    { admin1_code := some p, admin1_name := g0.pcode_to_name p,
      admin2_code := none, admin2_name := none }
  else
    { admin2_code := some p, admin2_name := g1.pcode_to_name p,
      admin1_code := g1.pcode_to_parent p,
      admin1_name := (g1.pcode_to_parent p).bind g0.pcode_to_name }

/-- A small concrete admin-1 gazetteer for Haiti, used in witnesses and
counterexamples. -/
def gazAdm1 : AdminLevelGaz :=
  { pcodes := ["HT01", "HT02"]
    pcode_to_name := fun p =>
      if p = "HT01" then some "Ouest" else if p = "HT02" then some "Sud" else none
    pcode_to_parent := fun _ => none
    convert_admin_pcode_length := fun _ _ _ => Except.ok none
    get_pcode := fun _ _ _ => (none, false) }

/-- A small concrete admin-2 gazetteer for Haiti, used in witnesses and
counterexamples. -/
def gazAdm2 : AdminLevelGaz :=
  { pcodes := ["HT0111", "HT0112"]
    pcode_to_name := fun p => if p = "HT0111" then some "Port-au-Prince" else none
    pcode_to_parent := fun p =>
      if p = "HT0111" then some "HT01" else if p = "HT0112" then some "HT01" else none
    convert_admin_pcode_length := fun _ _ _ => Except.ok none
    get_pcode := fun _ _ _ => (none, false) }

/-- One row of the renamed aggregation result fed into `get_rows`
(pipeline.py lines 286-307): the group-key columns under their HAPI names,
plus the summed population and the error flag. -/
structure ResultRow where
  location_code : String
  admin1Pcode : Option String
  admin2Pcode : Option String
  admin0Name : Option String
  provider_admin1_name : Option String
  provider_admin2_name : Option String
  admin_level : Nat
  assessment_type : Option String
  operation : Option String
  reportingDate : String
  reporting_round : Option Nat
  operationStatus : Option String
  population : Nat
  error : Option String
deriving DecidableEq, Repr

/-- The rename of the aggregated columns plus the missing-admin-2-name fill
(pipeline.py lines 286-302: at admin level 2 a missing provider admin-2
name becomes a single space). -/
def toResult (rec : AggRecord) : ResultRow :=
  { location_code := rec.key.admin0Pcode
    admin1Pcode := rec.key.admin1Pcode
    admin2Pcode := rec.key.admin2Pcode
    admin0Name := rec.key.admin0Name
    provider_admin1_name := rec.key.admin1Name
    provider_admin2_name :=
      if rec.key.adminLevel = 2 ∧ rec.key.admin2Name = none then some " "
      else rec.key.admin2Name
    admin_level := rec.key.adminLevel
    assessment_type := rec.key.assessmentType
    operation := rec.key.operation
    reportingDate := rec.key.reportingDate
    reporting_round := rec.key.roundNumber
    operationStatus := rec.key.operationStatus
    population := rec.population
    error := rec.error }

/-- One emitted HAPI row (`newrow` of `get_rows`, pipeline.py lines
309-382). -/
structure HapiRow where
  location_code : String
  has_hrp : String
  in_gho : String
  provider_admin1_name : Option String
  provider_admin2_name : Option String
  admin1_code : Option String
  admin1_name : Option String
  admin2_code : Option String
  admin2_name : Option String
  admin_level : Nat
  operation : Option String
  assessment_type : Option String
  population : Nat
  reporting_round : Option Nat
  reference_period_start : String
  reference_period_end : String
  dataset_hdx_id : String
  resource_hdx_id : String
  warning : String
  error : Option String
deriving DecidableEq, Repr

/-- The external `complete_admins` collaborator
(hdx.scraper.framework.utilities.hapi_admins): given the country, the
provider admin names and the admin codes, returns the resolved admin level,
the warnings, and the updated code and name pairs (the source mutates the
`adm_codes`/`adm_names` lists in place; the model returns them). -/
def CompleteAdminsFn : Type :=
  String → (Option String × Option String) → (Option String × Option String) →
    Nat × List String × (Option String × Option String) × (Option String × Option String)

/-- `default_date` of hdx.utilities.dateparse (the minimum representable
datetime), modelled on an integer timeline. -/
def default_date : Int := 0

/-- `default_enddate` of hdx.utilities.dateparse (the maximum representable
datetime), modelled on an integer timeline. -/
def default_enddate : Int := 99991231

/-- The body of the `get_rows` loop for one row (pipeline.py lines
312-382): HRP/GHO flags, admin resolution (level 0 bypasses matching with
empty-string codes and names and no warnings), the reference period set to
the parsed reporting date on both ends, dataset/resource ids, and the
pipe-joined warnings.  The external collaborators (HRP/GHO lookups,
`complete_admins`, `parse_date`, `iso_string_from_datetime`) are function
parameters. -/
def mkHapiRow (hrp gho : String → Bool) (ca : CompleteAdminsFn) (pd : String → Int)
    (iso_str : Int → String) (dataset_id resource_id : String) (row : ResultRow) :
    HapiRow :=
  let resolved :=
    if row.admin_level = 0 then
      (0, ([] : List String), ((some "" : Option String), (some "" : Option String)),
        ((some "" : Option String), (some "" : Option String)))
    else
      ca row.location_code (row.provider_admin1_name, row.provider_admin2_name)
        (row.admin1Pcode, row.admin2Pcode)
  { location_code := row.location_code
    has_hrp := if hrp row.location_code then "Y" else "N"
    in_gho := if gho row.location_code then "Y" else "N"
    provider_admin1_name := row.provider_admin1_name
    provider_admin2_name := row.provider_admin2_name
    admin1_code := resolved.2.2.1.1
    admin1_name := resolved.2.2.2.1
    admin2_code := resolved.2.2.1.2
    admin2_name := resolved.2.2.2.2
    admin_level := resolved.1
    operation := row.operation
    assessment_type := row.assessment_type
    population := row.population
    reporting_round := row.reporting_round
    reference_period_start := iso_str (pd row.reportingDate)
    reference_period_end := iso_str (pd row.reportingDate)
    dataset_hdx_id := dataset_id
    resource_hdx_id := resource_id
    warning := String.intercalate "|" resolved.2.1
    error := row.error }

/-- The `get_rows` generator (pipeline.py lines 309-382) together with the
`min_date`/`max_date` accumulators it updates per emitted row: returns the
emitted rows and the final `(min_date, max_date)` pair that the caller
passes to `dataset.set_time_period`. -/
def getRows (hrp gho : String → Bool) (ca : CompleteAdminsFn) (pd : String → Int)
    (iso_str : Int → String) (dataset_id resource_id : String) :
    List ResultRow → Int → Int → List HapiRow × Int × Int
  | [], min_date, max_date => ([], min_date, max_date)
  | row :: rest, min_date, max_date =>
    let date := pd row.reportingDate
    let min2 := if date < min_date then date else min_date
    let max2 := if date > max_date then date else max_date
    let out := getRows hrp gho ca pd iso_str dataset_id resource_id rest min2 max2
    (mkHapiRow hrp gho ca pd iso_str dataset_id resource_id row :: out.1, out.2)

/-- The running-minimum fold performed by `if date < min_date: min_date =
date` across the loop. -/
def minFold : List Int → Int → Int
  | [], m => m
  | d :: ds, m => minFold ds (if d < m then d else m)

/-- The running-maximum fold performed by `if date > max_date: max_date =
date` across the loop. -/
def maxFold : List Int → Int → Int
  | [], m => m
  | d :: ds, m => maxFold ds (if d > m then d else m)

/-- The full HAPI row stream of `generate_hapi_dataset`: duplicate
flagging, aggregation, rename, then `get_rows` starting from the
`default_enddate`/`default_date` accumulators (pipeline.py lines 304-403). -/
def generate_hapi_dataset_rows (hrp gho : String → Bool) (ca : CompleteAdminsFn)
    (pd : String → Int) (iso_str : Int → String) (dataset_id resource_id : String)
    (global_data : List Obs) : List HapiRow × Int × Int :=
  getRows hrp gho ca pd iso_str dataset_id resource_id
    ((aggregate (flagDuplicates global_data)).map toResult) default_enddate default_date

/-- Constant-false country-status lookup used in concrete witnesses. -/
def wBoolFn : String → Bool := fun _ => false

/-- Trivial `complete_admins` stand-in used in concrete witnesses. -/
def wCa : CompleteAdminsFn := fun _ _ codes => (1, [], codes, (none, none))

/-- Constant date parser used in concrete witnesses. -/
def wPd : String → Int := fun _ => 5

/-- Date renderer used in concrete witnesses. -/
def wIso : Int → String := fun d => toString d

/-- A concrete renamed aggregation row used in witnesses. -/
def wRow : ResultRow :=
  { location_code := "AFG"
    admin1Pcode := some "AF01"
    admin2Pcode := none
    admin0Name := some "Afghanistan"
    provider_admin1_name := some "Kabul"
    provider_admin2_name := none
    admin_level := 1
    assessment_type := some "BA"
    operation := some "Op"
    reportingDate := "2024-01-01"
    reporting_round := some 3
    operationStatus := some "Active"
    population := 7
    error := none }

theorem countP_two_le {α : Type} (p : α → Bool) [DecidableEq α] {l : List α} {a b : α}
    (ha : a ∈ l) (hb : b ∈ l) (hab : a ≠ b) (hpa : p a = true) (hpb : p b = true) :
    2 ≤ l.countP p := by
  have hperm : l.Perm (a :: l.erase a) := List.perm_cons_erase ha
  rw [hperm.countP_eq, List.countP_cons]
  have hbe : b ∈ l.erase a := (List.mem_erase_of_ne (Ne.symm hab)).mpr hb
  have hpos : 0 < (l.erase a).countP p := List.countP_pos_iff.mpr ⟨b, hbe, hpb⟩
  simp only [hpa, if_true]
  omega

theorem isDuplicate_pair_left (r s : Obs) :
    isDuplicate [r, s] r = decide (dedupKey s = dedupKey r) := by
  unfold isDuplicate
  by_cases h : dedupKey s = dedupKey r <;>
    simp [List.countP_cons, h]

theorem isDuplicate_pair_right (r s : Obs) :
    isDuplicate [r, s] s = decide (dedupKey r = dedupKey s) := by
  unfold isDuplicate
  by_cases h : dedupKey r = dedupKey s <;>
    simp [List.countP_cons, h]

/-- C2: duplicate detection flags every member of a group sharing a dedup
key (not only the second onward) with error "Duplicate row", and the
flagging of any given row is invariant under permutation of the input: if
rows A and B share a dedup key, both are flagged regardless of input
order. -/
theorem dedup_flags_all_members_and_is_order_invariant
    (rows rows' : List Obs) (hperm : rows.Perm rows') (A B : Obs)
    (hA : A ∈ rows) (hB : B ∈ rows) (hAB : A ≠ B)
    (hkey : dedupKey A = dedupKey B) :
    isDuplicate rows A = true ∧ isDuplicate rows B = true ∧
    FlaggedObs.mk A (some "Duplicate row") ∈ flagDuplicates rows ∧
    FlaggedObs.mk B (some "Duplicate row") ∈ flagDuplicates rows ∧
    (∀ r : Obs, isDuplicate rows' r = isDuplicate rows r) := by
  have hdA : isDuplicate rows A = true := by
    have : 2 ≤ rows.countP (fun s => decide (dedupKey s = dedupKey A)) :=
      countP_two_le _ hA hB hAB (by simp) (by simp [hkey])
    simpa [isDuplicate] using this
  have hdB : isDuplicate rows B = true := by
    have : 2 ≤ rows.countP (fun s => decide (dedupKey s = dedupKey B)) :=
      countP_two_le _ hA hB hAB (by simp [hkey]) (by simp)
    simpa [isDuplicate] using this
  refine ⟨hdA, hdB, ?_, ?_, ?_⟩
  · have := List.mem_map_of_mem
      (fun r => FlaggedObs.mk r (if isDuplicate rows r then some "Duplicate row" else none)) hA
    simpa [flagDuplicates, hdA] using this
  · have := List.mem_map_of_mem
      (fun r => FlaggedObs.mk r (if isDuplicate rows r then some "Duplicate row" else none)) hB
    simpa [flagDuplicates, hdB] using this
  · intro r
    unfold isDuplicate
    rw [hperm.countP_eq]

/-- Witness for C2 at a concrete input: two admin-2 rows for AFG that agree
on every dedup-key field but differ in population, in both input orders. -/
theorem dedup_flags_all_members_and_is_order_invariant_witness :
    isDuplicate [sampleObs 5 none "2024-01-01", sampleObs 3 none "2024-01-01"]
        (sampleObs 5 none "2024-01-01") = true ∧
    isDuplicate [sampleObs 5 none "2024-01-01", sampleObs 3 none "2024-01-01"]
        (sampleObs 3 none "2024-01-01") = true ∧
    isDuplicate [sampleObs 3 none "2024-01-01", sampleObs 5 none "2024-01-01"]
        (sampleObs 5 none "2024-01-01")
      = isDuplicate [sampleObs 5 none "2024-01-01", sampleObs 3 none "2024-01-01"]
        (sampleObs 5 none "2024-01-01") := by
  have h := dedup_flags_all_members_and_is_order_invariant
    [sampleObs 5 none "2024-01-01", sampleObs 3 none "2024-01-01"]
    [sampleObs 3 none "2024-01-01", sampleObs 5 none "2024-01-01"]
    (by decide) (sampleObs 5 none "2024-01-01") (sampleObs 3 none "2024-01-01")
    (by decide) (by decide) (by decide) (by decide)
  exact ⟨h.1, h.2.1, h.2.2.2.2 (sampleObs 5 none "2024-01-01")⟩

/-- C3 counterexample: two rows that agree on every field the claim lists
for the dedup key (fallback admin-2 code, provider admin-1/admin-2 names,
round, assessment type, operation, reporting date) but differ in
`displacementReason` — a column the code also puts in the dedup subset — are
NOT flagged as duplicates, so the key does not consist of the claimed
fields only. -/
theorem dedup_key_counterexample :
    claimedDedupKey (sampleObs 5 (some "Conflict") "2024-01-01")
      = claimedDedupKey (sampleObs 5 (some "Flood") "2024-01-01") ∧
    (flagDuplicates
        [sampleObs 5 (some "Conflict") "2024-01-01",
         sampleObs 5 (some "Flood") "2024-01-01"]).map (fun f => f.error)
      = [none, none] := by decide

/-- C3 amended: the dedup key consists of the claimed fields PLUS
`displacementReason`, `idpOriginAdmin1Name` and `idpOriginAdmin1Pcode`
(pipeline.py lines 211-224); a two-row input is flagged exactly when that
full key coincides, and in particular two rows differing only in the
reporting date are never flagged. -/
theorem dedup_key_fields
    (r s : Obs) :
    (isDuplicate [r, s] r = true ↔ dedupKey r = dedupKey s) ∧
    (dedupKey r = dedupKey s ↔
      (fallbackAdmin2 r = fallbackAdmin2 s ∧ r.admin1Name = s.admin1Name ∧
       r.admin2Name = s.admin2Name ∧ r.roundNumber = s.roundNumber ∧
       r.displacementReason = s.displacementReason ∧
       r.idpOriginAdmin1Name = s.idpOriginAdmin1Name ∧
       r.idpOriginAdmin1Pcode = s.idpOriginAdmin1Pcode ∧
       r.assessmentType = s.assessmentType ∧ r.operation = s.operation ∧
       r.reportingDate = s.reportingDate)) ∧
    (r.reportingDate ≠ s.reportingDate →
      isDuplicate [r, s] r = false ∧ isDuplicate [r, s] s = false) := by
  have hfields : dedupKey r = dedupKey s ↔
      (fallbackAdmin2 r = fallbackAdmin2 s ∧ r.admin1Name = s.admin1Name ∧
       r.admin2Name = s.admin2Name ∧ r.roundNumber = s.roundNumber ∧
       r.displacementReason = s.displacementReason ∧
       r.idpOriginAdmin1Name = s.idpOriginAdmin1Name ∧
       r.idpOriginAdmin1Pcode = s.idpOriginAdmin1Pcode ∧
       r.assessmentType = s.assessmentType ∧ r.operation = s.operation ∧
       r.reportingDate = s.reportingDate) := by
    simp [dedupKey, DedupKey.mk.injEq]
  refine ⟨?_, hfields, ?_⟩
  · rw [isDuplicate_pair_left]
    simp [eq_comm]
  · intro hdate
    have hne : dedupKey r ≠ dedupKey s := fun h => hdate (hfields.mp h).2.2.2.2.2.2.2.2.2
    constructor
    · rw [isDuplicate_pair_left]
      exact decide_eq_false (Ne.symm hne)
    · rw [isDuplicate_pair_right]
      exact decide_eq_false hne

theorem mem_firstKeys {k : GroupKey} : ∀ {ks : List GroupKey}, k ∈ firstKeys ks ↔ k ∈ ks
  | [] => by simp [firstKeys]
  | a :: rest => by
    by_cases hk : k = a
    · simp [firstKeys, hk]
    · simp [firstKeys, List.mem_filter, hk, @mem_firstKeys k rest]

theorem nodup_firstKeys : ∀ ks : List GroupKey, (firstKeys ks).Nodup
  | [] => List.nodup_nil
  | a :: rest => by
    refine List.Nodup.cons ?_ (List.Nodup.filter _ (nodup_firstKeys rest))
    intro hmem
    have := List.of_mem_filter hmem
    simp at this

theorem sum_map_filter_split {α : Type} (f : α → Nat) (p : α → Bool) :
    ∀ l : List α,
      ((l.filter p).map f).sum + ((l.filter fun a => !p a).map f).sum = (l.map f).sum
  | [] => rfl
  | a :: l => by
    have ih := sum_map_filter_split f p l
    by_cases hp : p a <;>
      simp [List.filter_cons, hp] <;> omega

theorem groupOf_filter_ne (flagged : List FlaggedObs) (k k2 : GroupKey) (hne : k2 ≠ k) :
    groupOf (flagged.filter fun f => !(decide (groupKey f.obs = k))) k2
      = groupOf flagged k2 := by
  unfold groupOf
  rw [List.filter_filter]
  apply List.filter_congr
  intro f _
  by_cases hf : groupKey f.obs = k2
  · simp [hf, hne]
  · simp [hf]

/-- The population sums of the groups of any duplicate-free, covering key
list add up to the total population of the input rows: the aggregation
drops no row. -/
theorem sum_over_groups (ks : List GroupKey) :
    ∀ flagged : List FlaggedObs, ks.Nodup →
      (∀ f ∈ flagged, groupKey f.obs ∈ ks) →
      (ks.map fun k => ((groupOf flagged k).map fun f => f.obs.numPresentIdpInd).sum).sum
        = (flagged.map fun f => f.obs.numPresentIdpInd).sum := by
  induction ks with
  | nil =>
    intro flagged _ hcov
    cases flagged with
    | nil => rfl
    | cons f t => exact absurd (hcov f (List.mem_cons_self f t)) (by simp)
  | cons k ks ih =>
    intro flagged hnd hcov
    have hknotin : k ∉ ks := (List.nodup_cons.mp hnd).1
    have hnd2 : ks.Nodup := (List.nodup_cons.mp hnd).2
    set rest := flagged.filter fun f => !(decide (groupKey f.obs = k)) with hrest
    have hcov2 : ∀ f ∈ rest, groupKey f.obs ∈ ks := by
      intro f hf
      have hmem := List.of_mem_filter hf
      have hin : f ∈ flagged := List.mem_of_mem_filter hf
      have := hcov f hin
      simp only [Bool.not_eq_true', decide_eq_false_iff_not] at hmem
      rcases List.mem_cons.mp this with h | h
      · exact absurd h hmem
      · exact h
    have hmapeq :
        (ks.map fun k2 => ((groupOf flagged k2).map fun f => f.obs.numPresentIdpInd).sum)
          = ks.map fun k2 => ((groupOf rest k2).map fun f => f.obs.numPresentIdpInd).sum := by
      apply List.map_congr_left
      intro k2 hk2
      have hne : k2 ≠ k := fun h => hknotin (h ▸ hk2)
      rw [hrest, groupOf_filter_ne flagged k k2 hne]
    calc (((k :: ks).map fun k2 =>
            ((groupOf flagged k2).map fun f => f.obs.numPresentIdpInd).sum)).sum
        = ((groupOf flagged k).map fun f => f.obs.numPresentIdpInd).sum
            + (ks.map fun k2 =>
                ((groupOf flagged k2).map fun f => f.obs.numPresentIdpInd).sum).sum := by
          simp
      _ = ((groupOf flagged k).map fun f => f.obs.numPresentIdpInd).sum
            + (rest.map fun f => f.obs.numPresentIdpInd).sum := by
          rw [hmapeq, ih rest hnd2 hcov2]
      _ = (flagged.map fun f => f.obs.numPresentIdpInd).sum := by
          rw [hrest]
          exact sum_map_filter_split (fun f => f.obs.numPresentIdpInd)
            (fun f => decide (groupKey f.obs = k)) flagged

theorem aggregate_keys (flagged : List FlaggedObs) :
    (aggregate flagged).map (fun rec => rec.key)
      = firstKeys (flagged.map fun f => groupKey f.obs) := by
  unfold aggregate
  rw [List.map_map]
  exact List.map_id _

/-- C1 counterexample: two rows identical in all key fields (same dedup key
and same group key), with populations 5 and 3.  Both are flagged
"Duplicate row", but the aggregation does NOT exclude them from the summed
total — the output contains a single record with population 5 + 3 = 8 —
and they do not both appear in the output: the groupby collapses them into
one record. -/
theorem duplicate_rows_not_excluded_counterexample :
    (flagDuplicates [sampleObs 5 none "2024-01-01", sampleObs 3 none "2024-01-01"]).map
        (fun f => f.error)
      = [some "Duplicate row", some "Duplicate row"] ∧
    (aggregate (flagDuplicates
        [sampleObs 5 none "2024-01-01", sampleObs 3 none "2024-01-01"])).map
        (fun rec => rec.population)
      = [8] ∧
    (aggregate (flagDuplicates
        [sampleObs 5 none "2024-01-01", sampleObs 3 none "2024-01-01"])).map
        (fun rec => rec.error)
      = [some "Duplicate row"] ∧
    (aggregate (flagDuplicates
        [sampleObs 5 none "2024-01-01", sampleObs 3 none "2024-01-01"])).length = 1 ∧
    (generate_hapi_dataset_rows wBoolFn wBoolFn wCa wPd wIso "dsid" "rsid"
        [sampleObs 5 none "2024-01-01", sampleObs 3 none "2024-01-01"]).1.length = 1 := by
  decide

/-- C1 amended: every AggregatedRecord's population is the exact sum of the
populations of ALL of its contributing rows — rows flagged "Duplicate row"
included — and no row is dropped: the populations of the emitted records
add up to the total population of the input.  (Duplicate-flagged rows are
merged into their group's single output record, which keeps the flag when
it heads the group, rather than being excluded from the sum or emitted
separately.) -/
theorem aggregation_sum_includes_all_rows (rows : List Obs) :
    (∀ rec ∈ aggregate (flagDuplicates rows),
      rec.population
        = ((groupOf (flagDuplicates rows) rec.key).map
            fun f => f.obs.numPresentIdpInd).sum) ∧
    ((aggregate (flagDuplicates rows)).map fun rec => rec.population).sum
      = (rows.map fun r => r.numPresentIdpInd).sum := by
  constructor
  · intro rec hrec
    obtain ⟨k, _, hk⟩ := List.mem_map.mp hrec
    subst hk
    rfl
  · have h1 : ((aggregate (flagDuplicates rows)).map fun rec => rec.population)
        = (firstKeys ((flagDuplicates rows).map fun f => groupKey f.obs)).map
            fun k => ((groupOf (flagDuplicates rows) k).map
              fun f => f.obs.numPresentIdpInd).sum := by
      unfold aggregate
      rw [List.map_map]
      rfl
    rw [h1, sum_over_groups _ _ (nodup_firstKeys _) ?hcov]
    case hcov =>
      intro f hf
      exact mem_firstKeys.mpr (List.mem_map_of_mem _ hf)
    unfold flagDuplicates
    rw [List.map_map]
    rfl

/-- Witness for C1 amended at the concrete 5/3 duplicate scenario. -/
theorem aggregation_sum_includes_all_rows_witness :
    ((aggregate (flagDuplicates
        [sampleObs 5 none "2024-01-01", sampleObs 3 none "2024-01-01"])).map
      fun rec => rec.population).sum
      = ([sampleObs 5 none "2024-01-01", sampleObs 3 none "2024-01-01"].map
          fun r => r.numPresentIdpInd).sum :=
  (aggregation_sum_includes_all_rows
    [sampleObs 5 none "2024-01-01", sampleObs 3 none "2024-01-01"]).2

/-- C8 counterexample: a group whose first contributing row (in input
order) is unflagged while later contributing rows carry
error = "Duplicate row" yields an AggregatedRecord with error = none: the
flag is NOT preserved "regardless of which contributing row was flagged",
because `agg "first"` keeps only the group's first error value. -/
theorem aggregated_error_counterexample :
    (flagDuplicates
        [sampleObs 4 (some "Flood") "2024-01-01",
         sampleObs 5 (some "Conflict") "2024-01-01",
         sampleObs 3 (some "Conflict") "2024-01-01"]).map (fun f => f.error)
      = [none, some "Duplicate row", some "Duplicate row"] ∧
    (aggregate (flagDuplicates
        [sampleObs 4 (some "Flood") "2024-01-01",
         sampleObs 5 (some "Conflict") "2024-01-01",
         sampleObs 3 (some "Conflict") "2024-01-01"])).map (fun rec => rec.error)
      = [none] := by decide

/-- C8 amended: the aggregation emits exactly one AggregatedRecord per
distinct grouping key (no two output records share a key, and every input
row's key is represented), and a record's error field equals the error of
the group's FIRST contributing row in input order — so the duplicate flag
survives exactly when the first contributing row carries it, not whenever
any contributing row does. -/
theorem aggregation_unique_keys_error_first (flagged : List FlaggedObs) :
    ((aggregate flagged).map fun rec => rec.key).Nodup ∧
    (∀ f ∈ flagged, groupKey f.obs ∈ (aggregate flagged).map fun rec => rec.key) ∧
    (∀ rec ∈ aggregate flagged,
      rec.error = ((groupOf flagged rec.key).head?.bind fun f => f.error)) := by
  refine ⟨?_, ?_, ?_⟩
  · rw [aggregate_keys]
    exact nodup_firstKeys _
  · intro f hf
    rw [aggregate_keys]
    exact mem_firstKeys.mpr (List.mem_map_of_mem _ hf)
  · intro rec hrec
    obtain ⟨k, _, hk⟩ := List.mem_map.mp hrec
    subst hk
    show (match groupOf flagged k with
          | [] => none
          | f :: _ => f.error) = (groupOf flagged k).head?.bind fun f => f.error
    cases groupOf flagged k <;> rfl

/-- Witness for C8 amended at a concrete three-row input. -/
theorem aggregation_unique_keys_error_first_witness :
    groupKey (sampleObs 4 (some "Flood") "2024-01-01")
      ∈ (aggregate (flagDuplicates
          [sampleObs 4 (some "Flood") "2024-01-01",
           sampleObs 5 (some "Conflict") "2024-01-01",
           sampleObs 3 (some "Conflict") "2024-01-01"])).map (fun rec => rec.key) :=
  (aggregation_unique_keys_error_first
      (flagDuplicates
        [sampleObs 4 (some "Flood") "2024-01-01",
         sampleObs 5 (some "Conflict") "2024-01-01",
         sampleObs 3 (some "Conflict") "2024-01-01"])).2.1
    (FlaggedObs.mk (sampleObs 4 (some "Flood") "2024-01-01") none) (by decide)

theorem pyGet_lvl1_own (g0 g1 : AdminLevelGaz) :
    pyGet [g0, g1] (((1 : Nat) : Int) - 1) = some g0 := rfl

theorem pyGet_lvl2_own (g0 g1 : AdminLevelGaz) :
    pyGet [g0, g1] (((2 : Nat) : Int) - 1) = some g1 := rfl

theorem pyGet_lvl1_parent (g0 g1 : AdminLevelGaz) :
    pyGet [g0, g1] (((1 : Nat) : Int) - 2) = some g1 := rfl

theorem pyGet_lvl2_parent (g0 g1 : AdminLevelGaz) :
    pyGet [g0, g1] (((2 : Nat) : Int) - 2) = some g0 := rfl

theorem finishAdminInfo_eq (g0 g1 : AdminLevelGaz) (lvl : Nat) (hlvl : lvl = 1 ∨ lvl = 2)
    (p : String) (w : Option String) (msgs : List MissingValueMsg) :
    finishAdminInfo [g0, g1] lvl p w msgs = some (mkFinishInfo g0 g1 lvl p, w, msgs) := by
  rcases hlvl with h | h <;> subst h <;> rfl

theorem parentLookup_eq (g0 g1 : AdminLevelGaz) (iso : String) (lvl : Nat)
    (hlvl : lvl = 1 ∨ lvl = 2) (pp pn : Option String) :
    parentLookup [g0, g1] iso lvl pp pn
      = some (if pyTruthy pn then ((if lvl = 1 then g1 else g0).get_pcode iso pn none).1
              else pp) := by
  rcases hlvl with h | h <;> subst h <;> by_cases hpn : pyTruthy pn = true
  · unfold parentLookup
    rw [if_pos hpn, if_pos hpn, pyGet_lvl1_parent]
    rfl
  · unfold parentLookup
    rw [if_neg hpn, if_neg hpn]
  · unfold parentLookup
    rw [if_pos hpn, if_pos hpn, pyGet_lvl2_parent]
    rfl
  · unfold parentLookup
    rw [if_neg hpn, if_neg hpn]

theorem convMatched_some (gaz : AdminLevelGaz) (iso p : String) (pp : Option String)
    (m : String) (h : convMatched gaz iso p pp = some m) :
    gaz.convert_admin_pcode_length iso p pp = Except.ok (some m) := by
  unfold convMatched at h
  cases hx : gaz.convert_admin_pcode_length iso p pp with
  | error e => rw [hx] at h; cases h
  | ok mm =>
    rw [hx] at h
    subst h
    rfl

theorem mkFinishInfo_mem (g0 g1 : AdminLevelGaz) (lvl : Nat) (hlvl : lvl = 1 ∨ lvl = 2)
    (q : String) (hq : q ∈ (if lvl = 1 then g0 else g1).pcodes)
    (hparent : ∀ r ∈ g1.pcodes, ∀ c, g1.pcode_to_parent r = some c → c ∈ g0.pcodes) :
    (∀ c, (mkFinishInfo g0 g1 lvl q).admin1_code = some c → c ∈ g0.pcodes) ∧
    (∀ c, (mkFinishInfo g0 g1 lvl q).admin2_code = some c → c ∈ g1.pcodes) := by
  rcases hlvl with h | h <;> subst h
  · simp only [if_pos rfl] at hq
    constructor
    · intro c hc
      simp only [mkFinishInfo, if_pos rfl] at hc
      obtain rfl : q = c := by simpa using hc
      exact hq
    · intro c hc
      simp [mkFinishInfo] at hc
  · simp only [if_neg (by omega : ¬ (2 : Nat) = 1)] at hq
    constructor
    · intro c hc
      simp only [mkFinishInfo, if_neg (by omega : ¬ (2 : Nat) = 1)] at hc
      exact hparent q hq c hc
    · intro c hc
      simp only [mkFinishInfo, if_neg (by omega : ¬ (2 : Nat) = 1)] at hc
      obtain rfl : q = c := by simpa using hc
      exact hq

theorem nameLookupBranch_cases (g0 g1 : AdminLevelGaz) (ds iso : String) (lvl : Nat)
    (hlvl : lvl = 1 ∨ lvl = 2) (p : String)
    (admin_name parent_pcode parent_name : Option String) :
    ∃ info w msgs,
      nameLookupBranch [g0, g1] ds iso lvl p admin_name parent_pcode parent_name
          (if lvl = 1 then g0 else g1)
        = some (info, w, msgs) ∧
      ((∃ pp2 m2,
          parentLookup [g0, g1] iso lvl parent_pcode parent_name = some pp2 ∧
          nameMatched (if lvl = 1 then g0 else g1) iso admin_name pp2 = some m2 ∧ m2 ≠ "" ∧
          info = mkFinishInfo g0 g1 lvl m2 ∧
          w = some ("Pcode unknown " ++ p ++ "->" ++ m2) ∧
          msgs = [missingPcodeMsg ds lvl (some p)])
       ∨ ((∃ pp2, parentLookup [g0, g1] iso lvl parent_pcode parent_name = some pp2 ∧
            pyTruthy (nameMatched (if lvl = 1 then g0 else g1) iso admin_name pp2) = false) ∧
          info = emptyAdminInfo ∧ w = some ("Pcode unknown " ++ p) ∧
          msgs = [missingPcodeMsg ds lvl (some p), missingPcodeMsg ds lvl (some p)])) := by
  have hpl := parentLookup_eq g0 g1 iso lvl hlvl parent_pcode parent_name
  cases hm2 : nameMatched (if lvl = 1 then g0 else g1) iso admin_name
      (if pyTruthy parent_name then
        ((if lvl = 1 then g1 else g0).get_pcode iso parent_name none).1
       else parent_pcode) with
  | none =>
    refine ⟨emptyAdminInfo, some ("Pcode unknown " ++ p),
      [missingPcodeMsg ds lvl (some p), missingPcodeMsg ds lvl (some p)], ?_,
      Or.inr ⟨⟨_, hpl, by rw [hm2]; rfl⟩, rfl, rfl, rfl⟩⟩
    unfold nameLookupBranch
    simp only [hpl, hm2]
    rfl
  | some m2 =>
    by_cases hm2e : m2 = ""
    · refine ⟨emptyAdminInfo, some ("Pcode unknown " ++ p),
        [missingPcodeMsg ds lvl (some p), missingPcodeMsg ds lvl (some p)], ?_,
        Or.inr ⟨⟨_, hpl, by rw [hm2]; simp [pyTruthy, hm2e]⟩, rfl, rfl, rfl⟩⟩
      unfold nameLookupBranch
      simp only [hpl, hm2]
      subst hm2e
      rfl
    · refine ⟨mkFinishInfo g0 g1 lvl m2, some ("Pcode unknown " ++ p ++ "->" ++ m2),
        [missingPcodeMsg ds lvl (some p)], ?_,
        Or.inl ⟨_, m2, hpl, hm2, hm2e, rfl, rfl, rfl⟩⟩
      unfold nameLookupBranch
      simp only [hpl, hm2]
      have hpt2 : pyTruthy (some m2) = true := by simp [pyTruthy, hm2e]
      rw [if_pos hpt2]
      exact finishAdminInfo_eq g0 g1 lvl hlvl m2 _ _

/-- Case characterization of `get_admin_info` over two loaded gazetteers:
the call never raises, and its result falls into exactly one of the five
paths of the resolver (missing pcode, direct hit, length-transform match,
name-lookup match, unresolved), with the warning, resolution and
diagnostics of each path spelled out. -/
theorem get_admin_info_cases (g0 g1 : AdminLevelGaz) (ds iso : String) (lvl : Nat)
    (hlvl : lvl = 1 ∨ lvl = 2)
    (pcode admin_name parent_pcode parent_name : Option String) :
    ∃ info w msgs,
      get_admin_info [g0, g1] ds iso lvl pcode admin_name parent_pcode parent_name
        = some (info, w, msgs) ∧
      ((pyTruthy pcode = false ∧ info = emptyAdminInfo ∧ w = some "Missing pcode" ∧
          msgs = [missingPcodeMsg ds lvl pcode])
       ∨ (∃ p, pcode = some p ∧ pyTruthy pcode = true ∧
            p ∈ (if lvl = 1 then g0 else g1).pcodes ∧
            info = mkFinishInfo g0 g1 lvl p ∧ w = none ∧ msgs = [])
       ∨ (∃ p m, pcode = some p ∧ pyTruthy pcode = true ∧
            p ∉ (if lvl = 1 then g0 else g1).pcodes ∧
            convMatched (if lvl = 1 then g0 else g1) iso p parent_pcode = some m ∧ m ≠ "" ∧
            info = mkFinishInfo g0 g1 lvl m ∧
            w = some ("Pcode unknown " ++ p ++ "->" ++ m) ∧ msgs = [])
       ∨ (∃ p pp2 m2, pcode = some p ∧ pyTruthy pcode = true ∧
            p ∉ (if lvl = 1 then g0 else g1).pcodes ∧
            pyTruthy (convMatched (if lvl = 1 then g0 else g1) iso p parent_pcode) = false ∧
            parentLookup [g0, g1] iso lvl parent_pcode parent_name = some pp2 ∧
            nameMatched (if lvl = 1 then g0 else g1) iso admin_name pp2 = some m2 ∧ m2 ≠ "" ∧
            info = mkFinishInfo g0 g1 lvl m2 ∧
            w = some ("Pcode unknown " ++ p ++ "->" ++ m2) ∧
            msgs = [missingPcodeMsg ds lvl (some p)])
       ∨ (∃ p, pcode = some p ∧ pyTruthy pcode = true ∧
            p ∉ (if lvl = 1 then g0 else g1).pcodes ∧
            pyTruthy (convMatched (if lvl = 1 then g0 else g1) iso p parent_pcode) = false ∧
            (∃ pp2, parentLookup [g0, g1] iso lvl parent_pcode parent_name = some pp2 ∧
              pyTruthy (nameMatched (if lvl = 1 then g0 else g1) iso admin_name pp2) = false) ∧
            info = emptyAdminInfo ∧ w = some ("Pcode unknown " ++ p) ∧
            msgs = [missingPcodeMsg ds lvl (some p), missingPcodeMsg ds lvl (some p)])) := by
  have hgaz : pyGet [g0, g1] ((lvl : Int) - 1) = some (if lvl = 1 then g0 else g1) := by
    rcases hlvl with h | h <;> subst h <;> rfl
  by_cases hpt : pyTruthy pcode = false
  · refine ⟨emptyAdminInfo, some "Missing pcode", [missingPcodeMsg ds lvl pcode], ?_,
      Or.inl ⟨hpt, rfl, rfl, rfl⟩⟩
    unfold get_admin_info
    rw [if_pos hpt]
  · have hpt' : pyTruthy pcode = true := by
      cases h : pyTruthy pcode
      · exact absurd h hpt
      · rfl
    obtain ⟨p, rfl⟩ : ∃ p, pcode = some p := by
      cases pcode with
      | none => simp [pyTruthy] at hpt'
      | some p => exact ⟨p, rfl⟩
    have hne : get_admin_info [g0, g1] ds iso lvl (some p) admin_name parent_pcode parent_name
        = (if p ∈ (if lvl = 1 then g0 else g1).pcodes then
             finishAdminInfo [g0, g1] lvl p none []
           else
             match convMatched (if lvl = 1 then g0 else g1) iso p parent_pcode with
             | some m =>
               if m = "" then
                 nameLookupBranch [g0, g1] ds iso lvl p admin_name parent_pcode parent_name
                   (if lvl = 1 then g0 else g1)
               else
                 finishAdminInfo [g0, g1] lvl m
                   (some ("Pcode unknown " ++ p ++ "->" ++ m)) []
             | none =>
               nameLookupBranch [g0, g1] ds iso lvl p admin_name parent_pcode parent_name
                 (if lvl = 1 then g0 else g1)) := by
      unfold get_admin_info
      rw [if_neg (by simp [hpt']), hgaz]
    by_cases hmem : p ∈ (if lvl = 1 then g0 else g1).pcodes
    · refine ⟨mkFinishInfo g0 g1 lvl p, none, [], ?_,
        Or.inr (Or.inl ⟨p, rfl, hpt', hmem, rfl, rfl, rfl⟩)⟩
      rw [hne, if_pos hmem, finishAdminInfo_eq g0 g1 lvl hlvl]
    · cases hc : convMatched (if lvl = 1 then g0 else g1) iso p parent_pcode with
      | some m =>
        by_cases hm : m = ""
        · obtain ⟨info, w, msgs, hnl, hdis⟩ :=
            nameLookupBranch_cases g0 g1 ds iso lvl hlvl p admin_name parent_pcode parent_name
          have hcf : pyTruthy (convMatched (if lvl = 1 then g0 else g1) iso p parent_pcode)
              = false := by rw [hc]; simp [pyTruthy, hm]
          refine ⟨info, w, msgs, ?_, ?_⟩
          · rw [hne, if_neg hmem]
            simp only [hc]
            rw [if_pos hm]
            exact hnl
          · rcases hdis with ⟨pp2, m2, hpl, hm2, hm2e, hinfo, hw, hmsgs⟩ | ⟨hfail, hinfo, hw, hmsgs⟩
            · exact Or.inr (Or.inr (Or.inr (Or.inl
                ⟨p, pp2, m2, rfl, hpt', hmem, hcf, hpl, hm2, hm2e, hinfo, hw, hmsgs⟩)))
            · exact Or.inr (Or.inr (Or.inr (Or.inr
                ⟨p, rfl, hpt', hmem, hcf, hfail, hinfo, hw, hmsgs⟩)))
        · refine ⟨mkFinishInfo g0 g1 lvl m, some ("Pcode unknown " ++ p ++ "->" ++ m), [], ?_,
            Or.inr (Or.inr (Or.inl ⟨p, m, rfl, hpt', hmem, hc, hm, rfl, rfl, rfl⟩))⟩
          rw [hne, if_neg hmem]
          simp only [hc]
          rw [if_neg hm, finishAdminInfo_eq g0 g1 lvl hlvl]
      | none =>
        obtain ⟨info, w, msgs, hnl, hdis⟩ :=
          nameLookupBranch_cases g0 g1 ds iso lvl hlvl p admin_name parent_pcode parent_name
        have hcf : pyTruthy (convMatched (if lvl = 1 then g0 else g1) iso p parent_pcode)
            = false := by rw [hc]; rfl
        refine ⟨info, w, msgs, ?_, ?_⟩
        · rw [hne, if_neg hmem]
          simp only [hc]
          exact hnl
        · rcases hdis with ⟨pp2, m2, hpl, hm2, hm2e, hinfo, hw, hmsgs⟩ | ⟨hfail, hinfo, hw, hmsgs⟩
          · exact Or.inr (Or.inr (Or.inr (Or.inl
              ⟨p, pp2, m2, rfl, hpt', hmem, hcf, hpl, hm2, hm2e, hinfo, hw, hmsgs⟩)))
          · exact Or.inr (Or.inr (Or.inr (Or.inr
              ⟨p, rfl, hpt', hmem, hcf, hfail, hinfo, hw, hmsgs⟩)))

/-- C7: with the two gazetteers loaded, `get_admin_info` at admin level 1
or 2 never raises: every input reaches a returned `(admin_info, warning)`
pair through the bounded fallback cascade. -/
theorem get_admin_info_never_raises (g0 g1 : AdminLevelGaz) (ds iso : String) (lvl : Nat)
    (hlvl : lvl = 1 ∨ lvl = 2)
    (pcode admin_name parent_pcode parent_name : Option String) :
    (get_admin_info [g0, g1] ds iso lvl pcode admin_name parent_pcode parent_name).isSome
      = true := by
  obtain ⟨info, w, msgs, heq, -⟩ :=
    get_admin_info_cases g0 g1 ds iso lvl hlvl pcode admin_name parent_pcode parent_name
  rw [heq]
  rfl

/-- Witness for C7 at a concrete gazetteer pair and input. -/
theorem get_admin_info_never_raises_witness :
    (get_admin_info [gazAdm1, gazAdm2] "iom-dtm" "HTI" 2 (some "HT0111")
      (some "Port-au-Prince") none none).isSome = true :=
  get_admin_info_never_raises gazAdm1 gazAdm2 "iom-dtm" "HTI" 2 (Or.inr rfl)
    (some "HT0111") (some "Port-au-Prince") none none

/-- C5: every non-`None` admin code in the returned resolution is a member
of the gazetteer for its admin level (given the library contracts that the
length transform and the name lookup only return gazetteer members, and
that admin-2 parents are admin-1 members), and a pcode that exists verbatim
in the gazetteer for the requested level is returned as-is with no
warning. -/
theorem resolved_pcodes_in_gazetteer (g0 g1 : AdminLevelGaz) (ds iso : String) (lvl : Nat)
    (hlvl : lvl = 1 ∨ lvl = 2)
    (pcode admin_name parent_pcode parent_name : Option String)
    (info : AdminInfo) (w : Option String) (msgs : List MissingValueMsg)
    (hconv : ∀ i pc pp m, (if lvl = 1 then g0 else g1).convert_admin_pcode_length i pc pp
        = Except.ok (some m) → m ∈ (if lvl = 1 then g0 else g1).pcodes)
    (hget : ∀ i n pp m, ((if lvl = 1 then g0 else g1).get_pcode i n pp).1 = some m →
        m ∈ (if lvl = 1 then g0 else g1).pcodes)
    (hparent : ∀ r ∈ g1.pcodes, ∀ c, g1.pcode_to_parent r = some c → c ∈ g0.pcodes)
    (hres : get_admin_info [g0, g1] ds iso lvl pcode admin_name parent_pcode parent_name
        = some (info, w, msgs)) :
    (∀ c, info.admin1_code = some c → c ∈ g0.pcodes) ∧
    (∀ c, info.admin2_code = some c → c ∈ g1.pcodes) ∧
    (∀ p, pcode = some p → p ≠ "" → p ∈ (if lvl = 1 then g0 else g1).pcodes →
      w = none ∧ (if lvl = 1 then info.admin1_code else info.admin2_code) = some p) := by
  obtain ⟨info0, w0, msgs0, heq, hdis⟩ :=
    get_admin_info_cases g0 g1 ds iso lvl hlvl pcode admin_name parent_pcode parent_name
  rw [hres] at heq
  injection heq with h
  injection h with h1 h2
  injection h2 with h2a h2b
  subst h1
  subst h2a
  subst h2b
  rcases hdis with ⟨hpt, hinfo, hw, hmsgs⟩ |
    ⟨p, hp, hpt, hpmem, hinfo, hw, hmsgs⟩ |
    ⟨p, m, hp, hpt, hpnmem, hc, hm, hinfo, hw, hmsgs⟩ |
    ⟨p, pp2, m2, hp, hpt, hpnmem, hcf, hpl, hm2, hm2e, hinfo, hw, hmsgs⟩ |
    ⟨p, hp, hpt, hpnmem, hcf, hfail, hinfo, hw, hmsgs⟩
  · subst hinfo
    refine ⟨?_, ?_, ?_⟩
    · intro c hc; simp [emptyAdminInfo] at hc
    · intro c hc; simp [emptyAdminInfo] at hc
    · intro q hq hqe _
      rw [hq] at hpt
      simp [pyTruthy, hqe] at hpt
  · subst hinfo
    obtain ⟨h1m, h2m⟩ := mkFinishInfo_mem g0 g1 lvl hlvl p hpmem hparent
    refine ⟨h1m, h2m, ?_⟩
    · intro q hq _ _
      rw [hp] at hq
      injection hq with hq
      subst hq
      refine ⟨hw, ?_⟩
      rcases hlvl with h | h <;> subst h <;> simp [mkFinishInfo]
  · subst hinfo
    have hmm : m ∈ (if lvl = 1 then g0 else g1).pcodes :=
      hconv iso p parent_pcode m (convMatched_some _ iso p parent_pcode m hc)
    obtain ⟨h1m, h2m⟩ := mkFinishInfo_mem g0 g1 lvl hlvl m hmm hparent
    refine ⟨h1m, h2m, ?_⟩
    · intro q hq _ hqmem
      rw [hp] at hq
      injection hq with hq
      subst hq
      exact absurd hqmem hpnmem
  · subst hinfo
    have hmm : m2 ∈ (if lvl = 1 then g0 else g1).pcodes :=
      hget iso admin_name pp2 m2 hm2
    obtain ⟨h1m, h2m⟩ := mkFinishInfo_mem g0 g1 lvl hlvl m2 hmm hparent
    refine ⟨h1m, h2m, ?_⟩
    · intro q hq _ hqmem
      rw [hp] at hq
      injection hq with hq
      subst hq
      exact absurd hqmem hpnmem
  · subst hinfo
    refine ⟨?_, ?_, ?_⟩
    · intro c hc; simp [emptyAdminInfo] at hc
    · intro c hc; simp [emptyAdminInfo] at hc
    · intro q hq _ hqmem
      rw [hp] at hq
      injection hq with hq
      subst hq
      exact absurd hqmem hpnmem

/-- Witness for C5 at a concrete gazetteer pair: a verbatim admin-2 hit
"HT0111". -/
theorem resolved_pcodes_in_gazetteer_witness :
    "HT01" ∈ gazAdm1.pcodes ∧ "HT0111" ∈ gazAdm2.pcodes ∧
    (some "HT0111" : Option String) = some "HT0111" := by
  have h := resolved_pcodes_in_gazetteer gazAdm1 gazAdm2 "iom-dtm" "HTI" 2 (Or.inr rfl)
    (some "HT0111") none none none
    (AdminInfo.mk (some "HT0111") (some "Port-au-Prince") (some "HT01") (some "Ouest"))
    none []
    (by intro i pc pp m hm; simp [gazAdm2] at hm)
    (by intro i n pp m hm; simp [gazAdm2] at hm)
    (by
      intro r hr c hc
      simp only [gazAdm2] at hr hc
      simp only [List.mem_cons, List.not_mem_nil, or_false] at hr
      rcases hr with rfl | rfl <;> simp at hc <;> simp [gazAdm1, ← hc])
    (by decide)
  refine ⟨h.1 "HT01" (by decide), h.2.1 "HT0111" (by decide), ?_⟩
  exact (h.2.2 "HT0111" rfl (by decide) (by decide)).2

/-- C4 counterexample: for a pcode unknown to the gazetteer whose length
transform and name lookup both fail, `get_admin_info` registers TWO
diagnostic messages (one before the name lookup and one after it fails),
not exactly one; the call is a single resolver invocation on one offending
value. -/
theorem diagnostic_count_counterexample :
    get_admin_info [gazAdm1, gazAdm2] "iom-dtm" "HTI" 2 (some "XX99") (some "Foo") none none
      = some (emptyAdminInfo, some "Pcode unknown XX99",
          [missingPcodeMsg "iom-dtm" 2 (some "XX99"),
           missingPcodeMsg "iom-dtm" 2 (some "XX99")]) := by decide

/-- C4 amended: every diagnostic registered by `get_admin_info` is tagged
with the dataset name, the admin level and the offending value, and the
number registered per call is 0, 1 or 2 by path: 1 for a missing pcode, 0
for a direct hit, 0 for a successful length transform, 1 for a successful
name lookup, 2 when the pcode stays unresolved. -/
theorem get_admin_info_message_counts (g0 g1 : AdminLevelGaz) (ds iso : String) (lvl : Nat)
    (hlvl : lvl = 1 ∨ lvl = 2)
    (pcode admin_name parent_pcode parent_name : Option String)
    (info : AdminInfo) (w : Option String) (msgs : List MissingValueMsg)
    (hres : get_admin_info [g0, g1] ds iso lvl pcode admin_name parent_pcode parent_name
        = some (info, w, msgs)) :
    (∀ m ∈ msgs, m = missingPcodeMsg ds lvl pcode) ∧
    msgs.length ≤ 2 ∧
    (pyTruthy pcode = false → msgs.length = 1) ∧
    (∀ p, pcode = some p → p ≠ "" →
      p ∈ (if lvl = 1 then g0 else g1).pcodes → msgs = []) ∧
    (∀ p, pcode = some p → p ≠ "" →
      p ∉ (if lvl = 1 then g0 else g1).pcodes →
      pyTruthy (convMatched (if lvl = 1 then g0 else g1) iso p parent_pcode) = true →
      msgs = []) ∧
    (∀ p pp2, pcode = some p → p ≠ "" →
      p ∉ (if lvl = 1 then g0 else g1).pcodes →
      pyTruthy (convMatched (if lvl = 1 then g0 else g1) iso p parent_pcode) = false →
      parentLookup [g0, g1] iso lvl parent_pcode parent_name = some pp2 →
      (pyTruthy (nameMatched (if lvl = 1 then g0 else g1) iso admin_name pp2) = true →
        msgs.length = 1) ∧
      (pyTruthy (nameMatched (if lvl = 1 then g0 else g1) iso admin_name pp2) = false →
        msgs.length = 2)) := by
  obtain ⟨info0, w0, msgs0, heq, hdis⟩ :=
    get_admin_info_cases g0 g1 ds iso lvl hlvl pcode admin_name parent_pcode parent_name
  rw [hres] at heq
  injection heq with h
  injection h with h1 h2
  injection h2 with h2a h2b
  subst h1
  subst h2a
  subst h2b
  rcases hdis with ⟨hpt, hinfo, hw, hmsgs⟩ |
    ⟨p, hp, hpt, hpmem, hinfo, hw, hmsgs⟩ |
    ⟨p, m, hp, hpt, hpnmem, hc, hm, hinfo, hw, hmsgs⟩ |
    ⟨p, pp2, m2, hp, hpt, hpnmem, hcf, hpl, hm2, hm2e, hinfo, hw, hmsgs⟩ |
    ⟨p, hp, hpt, hpnmem, hcf, hfail, hinfo, hw, hmsgs⟩ <;> subst hmsgs
  · refine ⟨by simp, by simp, fun _ => rfl, ?_, ?_, ?_⟩
    · intro q hq hqe _
      rw [hq] at hpt
      simp [pyTruthy, hqe] at hpt
    · intro q hq hqe _ _
      rw [hq] at hpt
      simp [pyTruthy, hqe] at hpt
    · intro q pp2 hq hqe _ _ _
      rw [hq] at hpt
      simp [pyTruthy, hqe] at hpt
  · refine ⟨by simp, by simp, ?_, fun _ _ _ _ => rfl, fun _ _ _ _ _ => rfl, ?_⟩
    · intro hf; rw [hpt] at hf; cases hf
    · intro q pp2 hq _ hqnmem _ _
      rw [hp] at hq
      injection hq with hq
      subst hq
      exact absurd hpmem hqnmem
  · have hct : pyTruthy (convMatched (if lvl = 1 then g0 else g1) iso p parent_pcode)
        = true := by rw [hc]; simp [pyTruthy, hm]
    refine ⟨by simp, by simp, ?_, fun _ _ _ _ => rfl, fun _ _ _ _ _ => rfl, ?_⟩
    · intro hf; rw [hpt] at hf; cases hf
    · intro q pp2 hq _ _ hqcf _
      rw [hp] at hq
      injection hq with hq
      subst hq
      rw [hct] at hqcf
      cases hqcf
  · rw [hp] at hpt
    rw [hp]
    refine ⟨by simp, by simp, ?_, ?_, ?_, ?_⟩
    · intro hf; rw [hpt] at hf; cases hf
    · intro q hq _ hqmem
      injection hq with hq
      subst hq
      exact absurd hqmem hpnmem
    · intro q hq _ _ hqct
      injection hq with hq
      subst hq
      rw [hcf] at hqct
      cases hqct
    · intro q qq2 hq _ _ _ hqpl
      injection hq with hq
      subst hq
      rw [hpl] at hqpl
      injection hqpl with hqpl
      subst hqpl
      constructor
      · intro _; rfl
      · intro hf
        rw [hm2] at hf
        simp [pyTruthy, hm2e] at hf
  · rw [hp] at hpt
    rw [hp]
    obtain ⟨pp2, hpl, hnf⟩ := hfail
    refine ⟨by simp, by simp, ?_, ?_, ?_, ?_⟩
    · intro hf; rw [hpt] at hf; cases hf
    · intro q hq _ hqmem
      injection hq with hq
      subst hq
      exact absurd hqmem hpnmem
    · intro q hq _ _ hqct
      injection hq with hq
      subst hq
      rw [hcf] at hqct
      cases hqct
    · intro q qq2 hq _ _ _ hqpl
      injection hq with hq
      subst hq
      rw [hpl] at hqpl
      injection hqpl with hqpl
      subst hqpl
      constructor
      · intro hf
        rw [hnf] at hf
        cases hf
      · intro _; rfl

/-- Witness for C4 amended at the unresolved path of a concrete call: two
messages registered. -/
theorem get_admin_info_message_counts_witness :
    ([missingPcodeMsg "iom-dtm" 2 (some "XX99"),
      missingPcodeMsg "iom-dtm" 2 (some "XX99")].length) = 2 :=
  ((get_admin_info_message_counts gazAdm1 gazAdm2 "iom-dtm" "HTI" 2 (Or.inr rfl)
      (some "XX99") (some "Foo") none none emptyAdminInfo (some "Pcode unknown XX99")
      [missingPcodeMsg "iom-dtm" 2 (some "XX99"), missingPcodeMsg "iom-dtm" 2 (some "XX99")]
      (by decide)).2.2.2.2.2 "XX99" none rfl (by decide) (by decide) (by decide)
      (by decide)).2 (by decide)

/-- C6 counterexample: the HTI scenario row (admin level 2, empty admin-2
pcode, parent pcode "HT01" resolvable in the admin-1 gazetteer) returns the
warning "Missing pcode" and ONE diagnostic, but an entirely empty
resolution: the admin-1 fields are `None`, not resolved from "HT01". -/
theorem missing_pcode_counterexample :
    "HT01" ∈ gazAdm1.pcodes ∧
    get_admin_info [gazAdm1, gazAdm2] "iom-dtm" "HTI" 2 (some "") (some "Foo")
        (some "HT01") none
      = some (emptyAdminInfo, some "Missing pcode",
          [missingPcodeMsg "iom-dtm" 2 (some "")]) ∧
    emptyAdminInfo.admin1_code = none ∧ emptyAdminInfo.admin1_name = none := by decide

/-- C6 amended: an empty or missing pcode makes `get_admin_info` emit one
`MissingValue` diagnostic and return warning "Missing pcode" with the
entirely empty resolution — empty at the requested level AND at the parent
level; the parent pcode is not consulted. -/
theorem missing_pcode_empty_resolution (admins : List AdminLevelGaz) (ds iso : String)
    (lvl : Nat) (pcode admin_name parent_pcode parent_name : Option String)
    (hfalsy : pyTruthy pcode = false) :
    get_admin_info admins ds iso lvl pcode admin_name parent_pcode parent_name
      = some (emptyAdminInfo, some "Missing pcode", [missingPcodeMsg ds lvl pcode]) := by
  unfold get_admin_info
  rw [if_pos hfalsy]

/-- Witness for C6 amended at the concrete HTI scenario input. -/
theorem missing_pcode_empty_resolution_witness :
    get_admin_info [gazAdm1, gazAdm2] "iom-dtm" "HTI" 2 (some "") (some "Foo")
        (some "HT01") none
      = some (emptyAdminInfo, some "Missing pcode",
          [missingPcodeMsg "iom-dtm" 2 (some "")]) :=
  missing_pcode_empty_resolution [gazAdm1, gazAdm2] "iom-dtm" "HTI" 2 (some "")
    (some "Foo") (some "HT01") none (by decide)

/-- C10: whenever a level-2 call returns a non-`None` admin-2 code, the
returned admin-1 code is the gazetteer parent of the resolved admin-2 code
and the admin-1 name is the gazetteer name of that parent; the
caller-supplied parent pcode and name are only matching context and never
flow into the returned admin-1 fields. -/
theorem admin1_fields_from_gazetteer_parent (g0 g1 : AdminLevelGaz) (ds iso : String)
    (pcode admin_name parent_pcode parent_name : Option String)
    (info : AdminInfo) (w : Option String) (msgs : List MissingValueMsg) (p : String)
    (hres : get_admin_info [g0, g1] ds iso 2 pcode admin_name parent_pcode parent_name
        = some (info, w, msgs))
    (hp : info.admin2_code = some p) :
    info.admin1_code = g1.pcode_to_parent p ∧
    info.admin1_name = (g1.pcode_to_parent p).bind g0.pcode_to_name := by
  obtain ⟨info0, w0, msgs0, heq, hdis⟩ :=
    get_admin_info_cases g0 g1 ds iso 2 (Or.inr rfl) pcode admin_name parent_pcode parent_name
  rw [hres] at heq
  injection heq with h
  injection h with h1 h2
  injection h2 with h2a h2b
  subst h1
  subst h2a
  subst h2b
  rcases hdis with ⟨-, hinfo, -, -⟩ |
    ⟨q, -, -, -, hinfo, -, -⟩ |
    ⟨q, m, -, -, -, -, -, hinfo, -, -⟩ |
    ⟨q, pp2, m2, -, -, -, -, -, -, -, hinfo, -, -⟩ |
    ⟨q, -, -, -, -, -, hinfo, -, -⟩
  · subst hinfo; simp [emptyAdminInfo] at hp
  · subst hinfo
    simp only [mkFinishInfo, if_neg (by omega : ¬ (2 : Nat) = 1)] at hp ⊢
    obtain rfl : q = p := by simpa using hp
    exact ⟨rfl, rfl⟩
  · subst hinfo
    simp only [mkFinishInfo, if_neg (by omega : ¬ (2 : Nat) = 1)] at hp ⊢
    obtain rfl : m = p := by simpa using hp
    exact ⟨rfl, rfl⟩
  · subst hinfo
    simp only [mkFinishInfo, if_neg (by omega : ¬ (2 : Nat) = 1)] at hp ⊢
    obtain rfl : m2 = p := by simpa using hp
    exact ⟨rfl, rfl⟩
  · subst hinfo; simp [emptyAdminInfo] at hp

/-- Witness for C10 at a concrete level-2 direct hit. -/
theorem admin1_fields_from_gazetteer_parent_witness :
    (AdminInfo.mk (some "HT0111") (some "Port-au-Prince") (some "HT01")
        (some "Ouest")).admin1_code = gazAdm2.pcode_to_parent "HT0111" ∧
    (AdminInfo.mk (some "HT0111") (some "Port-au-Prince") (some "HT01")
        (some "Ouest")).admin1_name
      = (gazAdm2.pcode_to_parent "HT0111").bind gazAdm1.pcode_to_name :=
  admin1_fields_from_gazetteer_parent gazAdm1 gazAdm2 "iom-dtm" "HTI"
    (some "HT0111") none (some "BAD") (some "Nowhere")
    (AdminInfo.mk (some "HT0111") (some "Port-au-Prince") (some "HT01") (some "Ouest"))
    none [] "HT0111" (by decide) (by decide)

theorem getRows_fst (hrp gho : String → Bool) (ca : CompleteAdminsFn) (pd : String → Int)
    (iso_str : Int → String) (did rid : String) :
    ∀ (rows : List ResultRow) (mn mx : Int),
      (getRows hrp gho ca pd iso_str did rid rows mn mx).1
        = rows.map (mkHapiRow hrp gho ca pd iso_str did rid)
  | [], _, _ => rfl
  | row :: rest, mn, mx => by
    simp only [getRows, List.map_cons]
    rw [getRows_fst hrp gho ca pd iso_str did rid rest]

theorem getRows_snd (hrp gho : String → Bool) (ca : CompleteAdminsFn) (pd : String → Int)
    (iso_str : Int → String) (did rid : String) :
    ∀ (rows : List ResultRow) (mn mx : Int),
      (getRows hrp gho ca pd iso_str did rid rows mn mx).2
        = (minFold (rows.map fun r => pd r.reportingDate) mn,
           maxFold (rows.map fun r => pd r.reportingDate) mx)
  | [], _, _ => rfl
  | row :: rest, mn, mx => by
    simp only [getRows, List.map_cons, minFold, maxFold]
    rw [getRows_snd hrp gho ca pd iso_str did rid rest]

theorem minFold_le : ∀ (ds : List Int) (m : Int),
    minFold ds m ≤ m ∧ ∀ d ∈ ds, minFold ds m ≤ d
  | [], m => ⟨le_refl m, by simp⟩
  | d :: ds, m => by
    have ih := minFold_le ds (if d < m then d else m)
    have hstep : (if d < m then d else m) ≤ m ∧ (if d < m then d else m) ≤ d := by
      split_ifs with h <;> omega
    refine ⟨?_, ?_⟩
    · calc minFold (d :: ds) m = minFold ds (if d < m then d else m) := rfl
        _ ≤ (if d < m then d else m) := ih.1
        _ ≤ m := hstep.1
    · intro e he
      rcases List.mem_cons.mp he with rfl | he
      · calc minFold (e :: ds) m = minFold ds (if e < m then e else m) := rfl
          _ ≤ (if e < m then e else m) := ih.1
          _ ≤ e := hstep.2
      · exact ih.2 e he

theorem maxFold_ge : ∀ (ds : List Int) (m : Int),
    m ≤ maxFold ds m ∧ ∀ d ∈ ds, d ≤ maxFold ds m
  | [], m => ⟨le_refl m, by simp⟩
  | d :: ds, m => by
    have ih := maxFold_ge ds (if d > m then d else m)
    have hstep : m ≤ (if d > m then d else m) ∧ d ≤ (if d > m then d else m) := by
      split_ifs with h <;> omega
    refine ⟨?_, ?_⟩
    · calc m ≤ (if d > m then d else m) := hstep.1
        _ ≤ maxFold ds (if d > m then d else m) := ih.1
        _ = maxFold (d :: ds) m := rfl
    · intro e he
      rcases List.mem_cons.mp he with rfl | he
      · calc e ≤ (if e > m then e else m) := hstep.2
          _ ≤ maxFold ds (if e > m then e else m) := ih.1
          _ = maxFold (e :: ds) m := rfl
      · exact ih.2 e he

theorem minFold_mem : ∀ (ds : List Int) (m : Int),
    minFold ds m = m ∨ minFold ds m ∈ ds
  | [], _ => Or.inl rfl
  | d :: ds, m => by
    have heq : minFold (d :: ds) m = minFold ds (if d < m then d else m) := rfl
    rcases minFold_mem ds (if d < m then d else m) with h | h
    · by_cases hc : d < m
      · right
        rw [heq, h, if_pos hc]
        exact List.mem_cons_self d ds
      · left
        rw [heq, h, if_neg hc]
    · right
      rw [heq]
      exact List.mem_cons_of_mem d h

theorem maxFold_mem : ∀ (ds : List Int) (m : Int),
    maxFold ds m = m ∨ maxFold ds m ∈ ds
  | [], _ => Or.inl rfl
  | d :: ds, m => by
    have heq : maxFold (d :: ds) m = maxFold ds (if d > m then d else m) := rfl
    rcases maxFold_mem ds (if d > m then d else m) with h | h
    · by_cases hc : d > m
      · right
        rw [heq, h, if_pos hc]
        exact List.mem_cons_self d ds
      · left
        rw [heq, h, if_neg hc]
    · right
      rw [heq]
      exact List.mem_cons_of_mem d h

theorem minFold_mem_of_bounded (ds : List Int) (m : Int) (hne : ds ≠ [])
    (hb : ∀ d ∈ ds, d ≤ m) : minFold ds m ∈ ds := by
  rcases minFold_mem ds m with h | h
  · obtain ⟨d0, hd0⟩ := List.exists_mem_of_ne_nil ds hne
    have h1 : minFold ds m ≤ d0 := (minFold_le ds m).2 d0 hd0
    have h2 : d0 = m := le_antisymm (hb d0 hd0) (h ▸ h1)
    rw [h, ← h2]
    exact hd0
  · exact h

theorem maxFold_mem_of_bounded (ds : List Int) (m : Int) (hne : ds ≠ [])
    (hb : ∀ d ∈ ds, m ≤ d) : maxFold ds m ∈ ds := by
  rcases maxFold_mem ds m with h | h
  · obtain ⟨d0, hd0⟩ := List.exists_mem_of_ne_nil ds hne
    have h1 : d0 ≤ maxFold ds m := (maxFold_ge ds m).2 d0 hd0
    have h2 : d0 = m := le_antisymm (h ▸ h1) (hb d0 hd0)
    rw [h, ← h2]
    exact hd0
  · exact h

/-- C9: every emitted HAPI row has `reference_period_start` and
`reference_period_end` both equal to (the rendering of) the parsed
reporting date of its source row, and the final `(min_date, max_date)`
pair passed to `set_time_period` is exactly the minimum and the maximum of
the parsed reporting dates over the emitted rows (for a non-empty stream
whose dates lie between the library's `default_date` and
`default_enddate` sentinels). -/
theorem reference_period_and_time_coverage (hrp gho : String → Bool)
    (ca : CompleteAdminsFn) (pd : String → Int) (iso_str : Int → String)
    (dataset_id resource_id : String) (rows : List ResultRow)
    (hne : rows ≠ [])
    (hlo : ∀ r ∈ rows, default_date ≤ pd r.reportingDate)
    (hhi : ∀ r ∈ rows, pd r.reportingDate ≤ default_enddate) :
    ((getRows hrp gho ca pd iso_str dataset_id resource_id rows
        default_enddate default_date).1.map fun hr => hr.reference_period_start)
      = (rows.map fun r => iso_str (pd r.reportingDate)) ∧
    ((getRows hrp gho ca pd iso_str dataset_id resource_id rows
        default_enddate default_date).1.map fun hr => hr.reference_period_end)
      = (rows.map fun r => iso_str (pd r.reportingDate)) ∧
    (getRows hrp gho ca pd iso_str dataset_id resource_id rows
        default_enddate default_date).2.1 ∈ (rows.map fun r => pd r.reportingDate) ∧
    (∀ r ∈ rows, (getRows hrp gho ca pd iso_str dataset_id resource_id rows
        default_enddate default_date).2.1 ≤ pd r.reportingDate) ∧
    (getRows hrp gho ca pd iso_str dataset_id resource_id rows
        default_enddate default_date).2.2 ∈ (rows.map fun r => pd r.reportingDate) ∧
    (∀ r ∈ rows, pd r.reportingDate ≤ (getRows hrp gho ca pd iso_str dataset_id
        resource_id rows default_enddate default_date).2.2) := by
  have hmapne : (rows.map fun r => pd r.reportingDate) ≠ [] := by
    simpa using hne
  have hhi2 : ∀ d ∈ (rows.map fun r => pd r.reportingDate), d ≤ default_enddate := by
    intro d hd
    obtain ⟨r, hr, rfl⟩ := List.mem_map.mp hd
    exact hhi r hr
  have hlo2 : ∀ d ∈ (rows.map fun r => pd r.reportingDate), default_date ≤ d := by
    intro d hd
    obtain ⟨r, hr, rfl⟩ := List.mem_map.mp hd
    exact hlo r hr
  have hsnd := getRows_snd hrp gho ca pd iso_str dataset_id resource_id rows
    default_enddate default_date
  refine ⟨?_, ?_, ?_, ?_, ?_, ?_⟩
  · rw [getRows_fst, List.map_map]
    rfl
  · rw [getRows_fst, List.map_map]
    rfl
  · rw [show (getRows hrp gho ca pd iso_str dataset_id resource_id rows
        default_enddate default_date).2.1
      = minFold (rows.map fun r => pd r.reportingDate) default_enddate from by rw [hsnd]]
    exact minFold_mem_of_bounded _ _ hmapne hhi2
  · intro r hr
    rw [show (getRows hrp gho ca pd iso_str dataset_id resource_id rows
        default_enddate default_date).2.1
      = minFold (rows.map fun r => pd r.reportingDate) default_enddate from by rw [hsnd]]
    exact (minFold_le _ _).2 _ (List.mem_map_of_mem _ hr)
  · rw [show (getRows hrp gho ca pd iso_str dataset_id resource_id rows
        default_enddate default_date).2.2
      = maxFold (rows.map fun r => pd r.reportingDate) default_date from by rw [hsnd]]
    exact maxFold_mem_of_bounded _ _ hmapne hlo2
  · intro r hr
    rw [show (getRows hrp gho ca pd iso_str dataset_id resource_id rows
        default_enddate default_date).2.2
      = maxFold (rows.map fun r => pd r.reportingDate) default_date from by rw [hsnd]]
    exact (maxFold_ge _ _).2 _ (List.mem_map_of_mem _ hr)

/-- Witness for C9 at a concrete one-row stream. -/
theorem reference_period_and_time_coverage_witness :
    ((getRows wBoolFn wBoolFn wCa wPd wIso "dsid" "rsid" [wRow]
        default_enddate default_date).1.map fun hr => hr.reference_period_start)
      = ([wRow].map fun r => wIso (wPd r.reportingDate)) ∧
    (getRows wBoolFn wBoolFn wCa wPd wIso "dsid" "rsid" [wRow]
        default_enddate default_date).2.1 ∈ ([wRow].map fun r => wPd r.reportingDate) := by
  have h := reference_period_and_time_coverage wBoolFn wBoolFn wCa wPd wIso "dsid" "rsid"
    [wRow] (by decide) (by decide) (by decide)
  exact ⟨h.1, h.2.2.1⟩

/-- Witness for C3 amended at a concrete input: the same row with two
different reporting dates is not flagged. -/
theorem dedup_key_fields_witness :
    isDuplicate [sampleObs 5 none "2024-01-01", sampleObs 5 none "2024-01-02"]
        (sampleObs 5 none "2024-01-01") = false ∧
    isDuplicate [sampleObs 5 none "2024-01-01", sampleObs 5 none "2024-01-02"]
        (sampleObs 5 none "2024-01-02") = false :=
  (dedup_key_fields (sampleObs 5 none "2024-01-01")
    (sampleObs 5 none "2024-01-02")).2.2 (by decide)
